import Mathlib

/- Shallow embedding of the two C source files of the repository,
   src/mod_win/winlow.c and src/mod_term/terminals.c.  Kernel and OS
   behaviour (the Nt system calls, select, PeekNamedPipe, the contents of
   the target file system, the PE header bytes of an executable) is
   modelled by explicit environment records holding the outcome of each
   call; the control flow of the C functions themselves is transcribed
   statement by statement. -/

-- ## NT status codes and flags, as used by src/mod_win/winlow.c

def STATUS_SUCCESS : Nat := 0x0
def STATUS_ACCESS_DENIED : Nat := 0xC0000022
def STATUS_OBJECT_NAME_NOT_FOUND : Nat := 0xC0000034
def STATUS_OBJECT_PATH_NOT_FOUND : Nat := 0xC000003A
def STATUS_SHARING_VIOLATION : Nat := 0xC0000043
def STATUS_DELETE_PENDING : Nat := 0xC0000056
def STATUS_DIRECTORY_NOT_EMPTY : Nat := 0xC0000101
def STATUS_CANNOT_DELETE : Nat := 0xC0000121

/-- NT_SUCCESS(s): the 32-bit status, read as a signed value, is
nonnegative (severity success or informational). -/
def NT_SUCCESS (s : Nat) : Bool := decide (s < 0x80000000)

def DELETE : Nat := 0x10000
def FILE_LIST_DIRECTORY : Nat := 0x1
def SYNCHRONIZE : Nat := 0x100000
def FILE_OPEN_FOR_BACKUP_INTENT : Nat := 0x4000
def FILE_SYNCHRONOUS_IO_NONALERT : Nat := 0x20
def FILE_ATTRIBUTE_READONLY : Nat := 0x1
def FILE_ATTRIBUTE_DIRECTORY : Nat := 0x10

-- ## is_dir_empty (winlow.c lines 153-245)

/-- One entry of a FILE_NAMES_INFORMATION page, as the model sees it: the
abstract name of the directory entry together with the status that
NtQueryAttributesFile, queried relative to the directory handle, returns
for that name. -/
structure DirEntry where
  name : Nat
  attrStatus : Nat

/-- Statuses under which is_dir_empty treats a listed entry as already
gone (winlow.c lines 218-220). -/
def absentB (s : Nat) : Bool :=
  decide (s = STATUS_DELETE_PENDING) || decide (s = STATUS_OBJECT_NAME_NOT_FOUND)
    || decide (s = STATUS_OBJECT_PATH_NOT_FOUND)

/-- Inner do-while of is_dir_empty over the entries of one page: queries
each entry in turn and stops at the first one that persists.  Returns
whether every entry was absent, together with the names actually queried. -/
def scanPage : List DirEntry → Bool × List Nat
  | [] => (true, [])
  | e :: rest =>
    if absentB e.attrStatus then
      let r := scanPage rest
      (r.1, e.name :: r.2)
    else (false, [e.name])

/-- Outer while of is_dir_empty across the remaining listing pages; an
exhausted listing makes NtQueryDirectoryFile return STATUS_NO_MORE_FILES,
which fails NT_SUCCESS and ends the loop with STATUS_SUCCESS returned. -/
def scanPages : List (List DirEntry) → Nat × List Nat
  | [] => (STATUS_SUCCESS, [])
  | p :: ps =>
    let r := scanPage p
    if r.1 then
      let r2 := scanPages ps
      (r2.1, r.2 ++ r2.2)
    else (STATUS_DIRECTORY_NOT_EMPTY, r.2)

/-- is_dir_empty (winlow.c lines 153-245).  The argument is the sequence
of pages the kernel hands back from successive NtQueryDirectoryFile
calls.  The first two entries of the first page are skipped purely by
position (following NextEntryOffset twice, lines 186-201); a first page
of two or fewer entries therefore returns STATUS_SUCCESS at once.  The
second component records the names submitted to NtQueryAttributesFile. -/
def is_dir_empty (pages : List (List DirEntry)) : Nat × List Nat :=
  match pages with
  | [] => (STATUS_SUCCESS, [])
  | p1 :: rest =>
    match p1 with
    | [] => (STATUS_SUCCESS, [])
    | [_] => (STATUS_SUCCESS, [])
    | [_, _] => (STATUS_SUCCESS, [])
    | _ :: _ :: e3 :: t => scanPages ((e3 :: t) :: rest)

-- ## safe_unlink (winlow.c lines 252-432)

/-- Outcomes of the kernel calls issued during one run of safe_unlink.
Per-attempt functions are indexed by how many calls of that kind were
made before. -/
structure UnlinkEnv where
  /-- First NtQueryAttributesFile on the target (line 284). -/
  queryStatus : Nat
  /-- FileAttributes delivered by that query. -/
  attrs : Nat
  /-- NtOpenFile with FILE_WRITE_ATTRIBUTES in the read-only branch. -/
  roOpenStatus : Nat
  /-- Second NtQueryAttributesFile after clearing the read-only bit. -/
  requeryStatus : Nat
  /-- FileAttributes delivered by the second query. -/
  requeryAttrs : Nat
  /-- NtOpenFile for deletion, per attempt (line 323). -/
  openStatus : Nat → Nat
  /-- Directory listing pages seen by is_dir_empty on the handle. -/
  pages : List (List DirEntry)
  /-- NtQueryInformationFile FileInternalInformation inside move_away. -/
  queryInternalStatus : Nat
  /-- NtSetInformationFile FileRenameInformation inside move_away. -/
  renameStatus : Nat
  /-- NtSetInformationFile FileDispositionInformation, per attempt. -/
  dispStatus : Nat → Nat
  /-- Relative NtOpenFile with FILE_DELETE_ON_CLOSE, per attempt. -/
  reopenStatus : Nat → Nat

/-- Lines 313-318 of winlow.c.  The if controlling this block has no
braces, so only the is_dir assignment is guarded by the
FILE_ATTRIBUTE_DIRECTORY test; the access and flags updates execute for
every target.  Returns (is_dir, access, flags) as used by the NtOpenFile
of line 323. -/
def unlinkOpenParams (attrs : Nat) : Bool × Nat × Nat :=
  (decide (FILE_ATTRIBUTE_DIRECTORY &&& attrs ≠ 0),
   DELETE ||| FILE_LIST_DIRECTORY ||| SYNCHRONIZE,
   FILE_OPEN_FOR_BACKUP_INTENT ||| FILE_SYNCHRONOUS_IO_NONALERT)

/-- move_away (winlow.c lines 70-152), reduced to its status outcome: it
fails with the status of the FileInternalInformation query or of the
rename, and returns STATUS_SUCCESS when the rename went through. -/
def move_away_status (env : UnlinkEnv) : Nat :=
  if NT_SUCCESS env.queryInternalStatus = false then env.queryInternalStatus
  else if NT_SUCCESS env.renameStatus = false then env.renameStatus
  else STATUS_SUCCESS

/-- Result of the open retry loop (winlow.c lines 321-347): either an
early return carrying (last_error_code, debug), or the loop ended with
the file opened, carrying try_to_move_away and the current status. -/
inductive OpenRes where
  | early (status debug : Nat)
  | opened (tma : Bool) (status : Nat)

/-- Open retry loop of safe_unlink (winlow.c lines 321-347), with
try_counter counting down.  A sharing violation widens the share mode,
sets try_to_move_away and retries, returning debug 0x4 once the counter
drops below 2; STATUS_DELETE_PENDING returns success with debug 0x2; any
other failure returns debug 0x3; success breaks out of the loop. -/
def openLoop (env : UnlinkEnv) (attempt counter : Nat) (tma : Bool) (status : Nat) : OpenRes :=
  match counter with
  | 0 => .opened tma status
  | c + 1 =>
    let st := env.openStatus attempt
    if st = STATUS_SHARING_VIOLATION then
      if c + 1 < 2 then .early st 0x4
      else openLoop env (attempt + 1) c true st
    else if st = STATUS_DELETE_PENDING then .early STATUS_SUCCESS 0x2
    else if NT_SUCCESS st = false then .early st 0x3
    else .opened tma st

/-- State carried out of the deletion retry loop: the status at the
point of NtClose, try_to_move_away, has_been_moved_away, and whether
move_away was ever invoked during the run. -/
structure DelRes where
  status : Nat
  tma : Bool
  moved : Bool
  mac : Bool

/-- Deletion retry loop of safe_unlink (winlow.c lines 380-425).
Each round sets FileDispositionInformation; STATUS_DIRECTORY_NOT_EMPTY
re-checks emptiness and stops if the directory persists non-empty;
STATUS_CANNOT_DELETE moves the file away when not yet attempted and then
re-opens the handle relatively with FILE_DELETE_ON_CLOSE; any other
failure stops; success stops. -/
def delLoop (env : UnlinkEnv) (attempt counter : Nat)
    (tma moved mac dirEmpty : Bool) (status : Nat) : DelRes :=
  match counter with
  | 0 => ⟨status, tma, moved, mac⟩
  | c + 1 =>
    let st := env.dispStatus attempt
    if st = STATUS_DIRECTORY_NOT_EMPTY then
      let de := dirEmpty || NT_SUCCESS (is_dir_empty env.pages).1
      if de = false then ⟨st, tma, moved, mac⟩
      else delLoop env (attempt + 1) c tma moved mac de st
    else if st = STATUS_CANNOT_DELETE then
      if tma = false then
        let ms := move_away_status env
        let moved2 := moved || NT_SUCCESS ms
        let ro := env.reopenStatus attempt
        if NT_SUCCESS ro then ⟨ro, true, moved2, true⟩
        else delLoop env (attempt + 1) c true moved2 true dirEmpty ro
      else
        let ro := env.reopenStatus attempt
        if NT_SUCCESS ro then ⟨ro, tma, moved, mac⟩
        else delLoop env (attempt + 1) c tma moved mac dirEmpty ro
    else if NT_SUCCESS st = false then ⟨st, tma, moved, mac⟩
    else ⟨st, tma, moved, mac⟩

/-- Observable outcome of one run of safe_unlink: the returned
UNLINK_RESULT (status, debug) plus ghost observations of the run — was
move_away invoked, did the rename succeed (has_been_moved_away), was the
main handle closed, and what was the status right before NtClose. -/
structure URun where
  status : Nat
  debug : Nat
  moveAwayCalled : Bool
  renamed : Bool
  closedMain : Bool
  finalStatus : Nat

/-- Lines 427-431 of winlow.c: NtClose the handle; when the file had
been moved away but the final status is a failure, report success with
debug 0x6, otherwise report the status itself. -/
def finishClose (d : DelRes) : URun :=
  if d.moved && !(NT_SUCCESS d.status) then
    ⟨STATUS_SUCCESS, 0x6, d.mac, d.moved, true, d.status⟩
  else
    ⟨d.status, 0, d.mac, d.moved, true, d.status⟩

/-- Lines 351-425 of winlow.c, after the file is opened: when
try_to_move_away is set, check directory emptiness (directories only)
and move the file away on success; then run the deletion retry loop (20
attempts, or 5 when already moved away) provided the current status is a
success. -/
def delPhase (env : UnlinkEnv) (is_dir tma : Bool) (st : Nat) : DelRes :=
  let stDir := if tma then (if is_dir then (is_dir_empty env.pages).1 else st) else st
  let doMove := tma && NT_SUCCESS stDir
  let ms := move_away_status env
  let st2 := if doMove then ms else stDir
  let moved1 := doMove && NT_SUCCESS ms
  let counter := if moved1 then 5 else 20
  if NT_SUCCESS st2 then delLoop env 0 counter tma moved1 doMove false st2
  else ⟨st2, tma, moved1, doMove⟩

/-- Body of safe_unlink after the attribute queries, with the effective
attributes and the status value current when the open loop starts. -/
def safe_unlink_main (env : UnlinkEnv) (attrs statusIn : Nat) : URun :=
  match openLoop env 0 10 false statusIn with
  | .early st dbg => ⟨st, dbg, false, false, false, st⟩
  | .opened tma st => finishClose (delPhase env (unlinkOpenParams attrs).1 tma st)

/-- safe_unlink (winlow.c lines 252-432).  The initial query failing
returns debug 0x1; a read-only target is re-opened to clear the bit and
re-queried (a failed re-query also returns debug 0x1, while a failed
clear-attributes open silently falls through with the stale attributes,
as in the source). -/
def safe_unlink (env : UnlinkEnv) : URun :=
  if NT_SUCCESS env.queryStatus = false then
    ⟨env.queryStatus, 0x1, false, false, false, env.queryStatus⟩
  else if FILE_ATTRIBUTE_READONLY &&& env.attrs ≠ 0 then
    (if NT_SUCCESS env.roOpenStatus = true then
      (if NT_SUCCESS env.requeryStatus = false then
        ⟨env.requeryStatus, 0x1, false, false, false, env.requeryStatus⟩
      else safe_unlink_main env env.requeryAttrs env.requeryStatus)
    else safe_unlink_main env env.attrs env.roOpenStatus)
  else safe_unlink_main env env.attrs env.queryStatus

-- ## is_gui_app (terminals.c lines 779-916) and its use in nt_spawnve

/-- Outcomes of reading the PE headers of the target executable in
is_gui_app: did CreateFile succeed, did the DOS magic match
IMAGE_DOS_SIGNATURE, did the NT signature match IMAGE_NT_SIGNATURE, and
the Subsystem field of the optional header. -/
structure PEEnv where
  openOk : Bool
  dosSigOk : Bool
  ntSigOk : Bool
  subsystem : Nat

/-- is_gui_app (terminals.c lines 779-916): -1 when the file cannot be
opened, the DOS signature is missing or the NT signature is missing
(the CoffHeaderOffset < 0 test at line 854 can never fire since
CoffHeaderOffset is an unsigned DWORD); otherwise the switch on
Subsystem: UNKNOWN(0), NATIVE(1), WINDOWS_GUI(2) and the default give 1,
WINDOWS_CUI(3), OS2_CUI(5), POSIX_CUI(7) give 0. -/
def is_gui_app (env : PEEnv) : Int :=
  if env.openOk = false then -1
  else if env.dosSigOk = false then -1
  else if env.ntSigOk = false then -1
  else if env.subsystem = 0 then 1
  else if env.subsystem = 1 then 1
  else if env.subsystem = 2 then 1
  else if env.subsystem = 3 then 0
  else if env.subsystem = 5 then 0
  else if env.subsystem = 7 then 0
  else 1

/-- Lines 1034-1042 of nt_spawnve: is_gui = is_gui_app(argv[0]); when it
is -1 the spawn falls back to is_gui = FALSE plus a cmd /c prefix.
Returns (is_gui, use_cmd). -/
def spawnGuiClass (env : PEEnv) : Int × Bool :=
  let g := is_gui_app env
  if g = -1 then (0, true) else (g, false)

-- ## Command line construction in nt_spawnve (terminals.c lines 985-1111)

/-- Escape character used by nt_spawnve when quoting arguments. -/
def escape_char : Char := '\\'

/-- An argument gets wrapped in quotes when it is empty or contains a
space, a tab or a quote (terminals.c lines 1056-1063, identical test in
the sizing pass at lines 994-1015). -/
def needQuotes (arg : List Char) : Bool :=
  arg.isEmpty || arg.any fun c => c = ' ' || c = '\t' || c = '"'

/-- Inner emission loop for a quoted argument (terminals.c lines
1067-1100), carrying escape_char_run, the number of escape characters
just emitted.  An embedded quote is preceded by one doubled copy of that
run plus one escape of its own; a run remaining at the end of the
argument is doubled before the closing quote. -/
def quoteBody : List Char → Nat → List Char
  | [], run => List.replicate run escape_char
  | c :: rest, run =>
    if c = '"' then
      List.replicate run escape_char ++ escape_char :: c :: quoteBody rest 0
    else
      c :: quoteBody rest (if c = escape_char then run + 1 else 0)

/-- One argument as emitted into the command line (terminals.c lines
1053-1107): quoted with escapes when needed, verbatim otherwise. -/
def quoteArg (arg : List Char) : List Char :=
  if needQuotes arg then '"' :: (quoteBody arg 0 ++ ['"']) else arg

/-- The command line built by nt_spawnve from argv (terminals.c lines
1044-1111, without the cmd /c fallback prefix): the quoted arguments
joined by single spaces, the trailing space replaced by the
terminator. -/
def nt_spawnve_cmdline : List (List Char) → List Char
  | [] => []
  | [a] => quoteArg a
  | a :: b :: rest => quoteArg a ++ ' ' :: nt_spawnve_cmdline (b :: rest)

-- ## Windows command-line splitting (the environment of claim C1)

/-- Whitespace that separates arguments on a Windows command line. -/
def isCmdWS (c : Char) : Bool := c = ' ' || c = '\t'

/-- Parser state for the Windows argument-splitting rules: inside
quotes, the pending run of backslashes, the argument under construction
(none between arguments) and the arguments produced so far. -/
structure SplitSt where
  inQ : Bool
  bs : Nat
  cur : Option (List Char)
  out : List (List Char)

/-- One character of the Windows argument-splitting rules (the C runtime
rules also implemented by CommandLineToArgvW): backslashes accumulate;
a quote consumes the run, yielding run/2 literal backslashes and, for an
odd run, a literal quote, for an even run a quote-mode toggle;
whitespace outside quotes ends the current argument; any other character
flushes the run literally.  The aggregate double-quote special case of
some C runtimes never arises on nt_spawnve output, where every embedded
quote is escaped. -/
def splitStep (st : SplitSt) (c : Char) : SplitSt :=
  if c = escape_char then
    { st with cur := some (st.cur.getD []), bs := st.bs + 1 }
  else if c = '"' then
    let base := st.cur.getD [] ++ List.replicate (st.bs / 2) escape_char
    if st.bs % 2 = 0 then
      { inQ := !st.inQ, bs := 0, cur := some base, out := st.out }
    else
      { inQ := st.inQ, bs := 0, cur := some (base ++ ['"']), out := st.out }
  else if isCmdWS c && !st.inQ then
    match st.cur with
    | none => { st with bs := 0 }
    | some a =>
      { inQ := st.inQ, bs := 0, cur := none,
        out := st.out ++ [a ++ List.replicate st.bs escape_char] }
  else
    { inQ := st.inQ, bs := 0,
      cur := some (st.cur.getD [] ++ List.replicate st.bs escape_char ++ [c]),
      out := st.out }

/-- End of input: a pending argument (and pending backslash run) is
flushed. -/
def splitFinish (st : SplitSt) : List (List Char) :=
  match st.cur with
  | none => st.out
  | some a => st.out ++ [a ++ List.replicate st.bs escape_char]

/-- Split a command line into its argv under the Windows
argument-splitting rules. -/
def winSplit (s : List Char) : List (List Char) :=
  splitFinish (s.foldl splitStep ⟨false, 0, none, []⟩)

-- ## __gnat_expect_poll, POSIX variant (terminals.c lines 669-747)

/-- Environment of one call of the select-based poll: which descriptors
are read-ready, which have an exceptional condition pending, and whether
select fails outright. -/
structure PosixEnv where
  readable : Int → Bool
  exc : Int → Bool
  selErr : Bool

/-- The timeval built at lines 681-682: C truncating division and
remainder of the millisecond timeout. -/
def tvOf (timeout : Int) : Int × Int :=
  (Int.tdiv timeout 1000, Int.tmod timeout 1000 * 1000)

/-- Return value of select over the read and exception sets: the number
of distinct descriptors set in each of the two masks. -/
def selectCount (fds : List Int) (env : PosixEnv) : Int :=
  ((fds.dedup.filter fun f => env.readable f).length : Int)
    + ((fds.dedup.filter fun f => env.exc f).length : Int)

/-- Model of select under a static environment: -1 on error or on a
timeval with a negative field (EINVAL); with a null timeout pointer it
blocks forever (none) when nothing is ready; otherwise it reports the
count, 0 meaning the timeout expired. -/
def selectModel (fds : List Int) (tmo : Option (Int × Int)) (env : PosixEnv) : Option Int :=
  if env.selErr then some (-1)
  else
    match tmo with
    | none => if selectCount fds env > 0 then some (selectCount fds env) else none
    | some (s, u) =>
      if s < 0 ∨ u < 0 then some (-1) else some (selectCount fds env)

/-- __gnat_expect_poll, POSIX variant (terminals.c lines 669-747),
compiled without the HP-UX TIOCREQCHECK block.  A null timeout pointer
is passed exactly when timeout = -1 (line 699); the do-while re-loops
only while timeout == -1 and ready == 0 (line 744), which under a static
environment never terminates, hence none.  is_set is written only when
ready > 0; on the timeout and error paths the caller's array is
returned untouched. -/
def expect_poll_posix (fds : List Int) (timeout : Int) (is0 : List Int)
    (env : PosixEnv) : Option (Int × List Int) :=
  let tmo := if timeout = -1 then none else some (tvOf timeout)
  match selectModel fds tmo env with
  | none => none
  | some ready =>
    if ready > 0 then
      some (ready, fds.map fun f => if env.readable f then 1 else 0)
    else if timeout = -1 ∧ ready = 0 then none
    else some (ready, is0)

-- ## __gnat_expect_poll, Windows variant (terminals.c lines 1473-1518)

/-- Environment of the pipe-based poll: bytes available on each
descriptor's pipe and whether PeekNamedPipe succeeds on it. -/
structure WinEnv where
  avail : Int → Nat
  peekOk : Int → Bool

/-- A list of n zeroes, the is_set array right after the clearing loop
at lines 1482-1483. -/
def zerosList (n : Nat) : List Int := List.replicate n 0

/-- One pass of the Windows poll over the descriptors (lines 1497-1507):
a PeekNamedPipe failure returns -1 at once, the first pipe with data
available returns 1 with only its own is_set entry raised; none when the
pass finds nothing. -/
def winPass (env : WinEnv) : List Int → Option (Int × List Int)
  | [] => none
  | f :: rest =>
    if env.peekOk f = false then some (-1, 0 :: zerosList rest.length)
    else if env.avail f > 0 then some (1, 1 :: zerosList rest.length)
    else
      match winPass env rest with
      | none => none
      | some (r, s) => some (r, 0 :: s)

/-- __gnat_expect_poll, Windows variant (terminals.c lines 1473-1518).
Under a static environment every pass is identical, so a pass that finds
nothing leads to return 0 once the sleep budget consumes a non-negative
timeout, and loops forever (none) when timeout < 0 (infinite). -/
def expect_poll_win (fds : List Int) (timeout : Int) (env : WinEnv) :
    Option (Int × List Int) :=
  match winPass env fds with
  | some rs => some rs
  | none => if timeout < 0 then none else some (0, zerosList fds.length)

-- ## gvd_waitpid, Windows variant (terminals.c lines 1393-1411)

/-- State of the child process behind the handle: still running, and its
exit code once it has exited. -/
structure WaitEnv where
  stillActive : Bool
  exitCode : Nat

/-- WaitForSingleObject on the process handle: signalled at once when
the process has exited; with INFINITE (0xFFFFFFFF) it blocks (none)
while the process runs; with any finite timeout, under a static
environment, it returns WAIT_TIMEOUT (0x102). -/
def WaitForSingleObject (env : WaitEnv) (timeoutMs : Nat) : Option Nat :=
  if env.stillActive = false then some 0
  else if timeoutMs = 0xFFFFFFFF then none
  else some 0x102

/-- GetExitCodeProcess: STILL_ACTIVE (259) while the process runs, the
exit code afterwards. -/
def GetExitCodeProcess (env : WaitEnv) : Nat :=
  if env.stillActive then 259 else env.exitCode

/-- gvd_waitpid, Windows variant (terminals.c lines 1393-1411): calls
WaitForSingleObject with a timeout of 0 (line 1402), then
GetExitCodeProcess, closes the thread and process handles and returns
the exit code.  Result: (exit code, thread handle closed, process
handle closed). -/
def gvd_waitpid_win (env : WaitEnv) : Option (Nat × Bool × Bool) :=
  match WaitForSingleObject env 0 with
  | none => none
  | some _ => some (GetExitCodeProcess env, true, true)

-- ## allocate_pty_desc and gvd_new_tty (terminals.c lines 158-224, 601-609)

/-- The pty handle structure term_handler (terminals.c lines 131-138):
master and slave descriptors, the bounded nul-terminated copy of the
slave name, and the child pid. -/
structure TermHandlerP where
  master_fd : Int
  slave_fd : Int
  slave_name : List Char
  child_pid : Int

/-- Environment of allocate_pty_desc on a USE_GETPT build: the
descriptor returned by getpt and the outcome of ptsname. -/
structure PtyEnv where
  getptFd : Int
  ptsnameOk : Bool
  ptsnameVal : List Char

/-- allocate_pty_desc (terminals.c lines 158-224): fails with (-1, none)
— the out parameter is set to NULL — when the master cannot be opened or
the slave name cannot be resolved; on success returns (0, some handle)
with slave_fd = -1, the slave name copied bounded (31 characters plus
the forced terminator) and child_pid = -1. -/
def allocate_pty_desc (env : PtyEnv) : Int × Option TermHandlerP :=
  if env.getptFd < 0 then (-1, none)
  else if env.ptsnameOk = false then (-1, none)
  else (0, some ⟨env.getptFd, -1, env.ptsnameVal.take 31, -1⟩)

/-- Faults observable in the model of gvd_new_tty. -/
inductive TtyFault where
  | nullDeref
deriving DecidableEq

/-- gvd_new_tty (terminals.c lines 601-609): calls allocate_pty_desc,
never inspects the returned status, and immediately evaluates
child_setup_tty (desc->master_fd).  When allocation failed the out
pointer is NULL and that field read dereferences it; otherwise the
handle is returned (the termios side effect of child_setup_tty is not
modelled). -/
def gvd_new_tty (env : PtyEnv) : Except TtyFault TermHandlerP :=
  match (allocate_pty_desc env).2 with
  | none => .error .nullDeref
  | some d => .ok d

-- ## Specification predicates and concrete environments used by the theorems

/-- Amended contract of the POSIX poll (stated from the behaviour of the
source): a positive return equals the select count over the read and
exception sets with is_set marking exactly the readable descriptors; a
zero return means nothing was ready under a non-negative timeout, the
caller's is_set array left untouched; -1 means select failed, either
outright or because a negative timeout other than -1 produced a timeval
with a negative field. -/
def posixPollSpec (fds : List Int) (timeout : Int) (is0 : List Int)
    (env : PosixEnv) (r : Int) (s : List Int) : Prop :=
  (0 < r ∧ r = selectCount fds env ∧ s.length = fds.length
     ∧ ∀ i, (hi : i < fds.length) → (hs : i < s.length) →
         (s.get ⟨i, hs⟩ = 1 ↔ env.readable (fds.get ⟨i, hi⟩) = true))
  ∨ (r = 0 ∧ s = is0 ∧ selectCount fds env = 0 ∧ env.selErr = false ∧ 0 ≤ timeout)
  ∨ (r = -1 ∧ s = is0 ∧ (env.selErr = true ∨ (timeout < 0 ∧ timeout ≠ -1)))

/-- Amended contract of the Windows poll: a return of 1 marks exactly
the first descriptor with data available, every earlier one having been
peeked clean; 0 means a full clean pass under a non-negative timeout
with is_set all zero; -1 means PeekNamedPipe failed on some descriptor,
is_set all zero. -/
def winPollSpec (fds : List Int) (timeout : Int) (env : WinEnv)
    (r : Int) (s : List Int) : Prop :=
  (r = 1 ∧ ∃ pre f post, fds = pre ++ f :: post
     ∧ (∀ g ∈ pre, env.peekOk g = true ∧ env.avail g = 0)
     ∧ env.peekOk f = true ∧ 0 < env.avail f
     ∧ s = zerosList pre.length ++ 1 :: zerosList post.length)
  ∨ (r = 0 ∧ 0 ≤ timeout ∧ s = zerosList fds.length
     ∧ ∀ f ∈ fds, env.peekOk f = true ∧ env.avail f = 0)
  ∨ (r = -1 ∧ s = zerosList fds.length ∧ ∃ f ∈ fds, env.peekOk f = false)

/-- Environment with data available on every pipe. -/
def envWinRdy : WinEnv := { avail := fun _ => 1, peekOk := fun _ => true }

/-- Environment where only descriptor 4 is readable and select works. -/
def envPosixRdy : PosixEnv :=
  { readable := fun f => decide (f = 4), exc := fun _ => false, selErr := false }

/-- Environment where nothing is ready and select works. -/
def envPosixIdle : PosixEnv :=
  { readable := fun _ => false, exc := fun _ => false, selErr := false }

/-- Concrete run for claim C3: a non-read-only directory whose listing
shows a third, live entry; opening succeeds at once and every
set-disposition attempt reports STATUS_DIRECTORY_NOT_EMPTY. -/
def envC3 : UnlinkEnv :=
  { queryStatus := STATUS_SUCCESS,
    attrs := FILE_ATTRIBUTE_DIRECTORY,
    roOpenStatus := STATUS_SUCCESS,
    requeryStatus := STATUS_SUCCESS,
    requeryAttrs := FILE_ATTRIBUTE_DIRECTORY,
    openStatus := fun _ => STATUS_SUCCESS,
    pages := [[⟨0, STATUS_SUCCESS⟩, ⟨1, STATUS_SUCCESS⟩, ⟨2, STATUS_SUCCESS⟩]],
    queryInternalStatus := STATUS_SUCCESS,
    renameStatus := STATUS_SUCCESS,
    dispStatus := fun _ => STATUS_DIRECTORY_NOT_EMPTY,
    reopenStatus := fun _ => STATUS_SUCCESS }

/-- Concrete run for claim C6: a plain file first hit by a sharing
violation (so it gets moved away), whose rename succeeds and whose
set-disposition attempts then fail with STATUS_ACCESS_DENIED. -/
def envC6 : UnlinkEnv :=
  { queryStatus := STATUS_SUCCESS,
    attrs := 0x20,
    roOpenStatus := STATUS_SUCCESS,
    requeryStatus := STATUS_SUCCESS,
    requeryAttrs := 0x20,
    openStatus := fun n => if n = 0 then STATUS_SHARING_VIOLATION else STATUS_SUCCESS,
    pages := [],
    queryInternalStatus := STATUS_SUCCESS,
    renameStatus := STATUS_SUCCESS,
    dispStatus := fun _ => STATUS_ACCESS_DENIED,
    reopenStatus := fun _ => STATUS_ACCESS_DENIED }

-- ## Helper lemmas on the winlow.c model

theorem scanPage_fst (p : List DirEntry) :
    (scanPage p).1 = (p.all fun e => absentB e.attrStatus) := by
  induction p with
  | nil => rfl
  | cons e rest ih =>
    simp only [scanPage, List.all_cons]
    cases h : absentB e.attrStatus <;> simp [h, ih]

theorem scanPages_not_all_absent (l : List (List DirEntry))
    (h : (l.all fun p => p.all fun e => absentB e.attrStatus) = false) :
    (scanPages l).1 = STATUS_DIRECTORY_NOT_EMPTY := by
  induction l with
  | nil => simp at h
  | cons p ps ih =>
    simp only [List.all_cons, Bool.and_eq_false_iff] at h
    simp only [scanPages]
    cases hp : (scanPage p).1 with
    | false => simp [hp]
    | true =>
      rcases h with h | h
      · rw [scanPage_fst] at hp; rw [hp] at h; cases h
      · simp [hp, ih h]

theorem openLoop_early_fail (env : UnlinkEnv)
    (Hopen : ∀ n, env.openStatus n ≠ STATUS_DELETE_PENDING) :
    ∀ c att tma st st' dbg, openLoop env att c tma st = .early st' dbg →
      NT_SUCCESS st' = false := by
  intro c
  induction c with
  | zero => intro att tma st st' dbg h; simp [openLoop] at h
  | succ c ih =>
    intro att tma st st' dbg h
    simp only [openLoop] at h
    by_cases h1 : env.openStatus att = STATUS_SHARING_VIOLATION
    · rw [if_pos h1] at h
      by_cases h2 : c + 1 < 2
      · rw [if_pos h2] at h
        injection h with ha hb
        rw [← ha, h1]; decide
      · rw [if_neg h2] at h
        exact ih _ _ _ _ _ h
    · rw [if_neg h1] at h
      by_cases h2 : env.openStatus att = STATUS_DELETE_PENDING
      · exact absurd h2 (Hopen att)
      · rw [if_neg h2] at h
        by_cases h3 : NT_SUCCESS (env.openStatus att) = false
        · rw [if_pos h3] at h
          injection h with ha hb
          rw [← ha]; exact h3
        · rw [if_neg h3] at h; cases h

theorem delLoop_stops_not_empty (env : UnlinkEnv) (att c : Nat)
    (tma moved mac : Bool) (st : Nat)
    (Hd : env.dispStatus att = STATUS_DIRECTORY_NOT_EMPTY)
    (Hne : NT_SUCCESS (is_dir_empty env.pages).1 = false) :
    delLoop env att (c + 1) tma moved mac false st
      = ⟨STATUS_DIRECTORY_NOT_EMPTY, tma, moved, mac⟩ := by
  simp only [delLoop, Hd]
  simp [Hne]

theorem finishClose_renamed (d : DelRes) : (finishClose d).renamed = d.moved := by
  unfold finishClose; split <;> rfl

theorem finishClose_final (d : DelRes) : (finishClose d).finalStatus = d.status := by
  unfold finishClose; split <;> rfl

-- ## Claim theorems on winlow.c

/-- Claim C10 (confirmed): is_dir_empty reports every directory whose
first listing page holds two or fewer entries as empty, skipping the
first two entries purely by position: whatever the entries' names and
statuses, the result is STATUS_SUCCESS and no per-entry existence check
is performed (the list of queried names is empty). -/
theorem is_dir_empty_short_first_page (p1 : List DirEntry) (ps : List (List DirEntry))
    (h : p1.length ≤ 2) :
    is_dir_empty (p1 :: ps) = (STATUS_SUCCESS, []) := by
  rcases p1 with _ | ⟨a, _ | ⟨b, _ | ⟨c, t⟩⟩⟩
  · rfl
  · rfl
  · rfl
  · simp at h

/-- Witness for C10: a first page of two live entries whose names are
not the dot entries still yields success with no existence check. -/
theorem is_dir_empty_short_first_page_witness :
    is_dir_empty [[⟨5, STATUS_SUCCESS⟩, ⟨6, STATUS_SUCCESS⟩]] = (STATUS_SUCCESS, []) :=
  is_dir_empty_short_first_page [⟨5, STATUS_SUCCESS⟩, ⟨6, STATUS_SUCCESS⟩] [] (by decide)

/-- Claim C5 (code bug): because the if at winlow.c line 313 has no
braces, the open access mask and flags are augmented with
FILE_LIST_DIRECTORY, SYNCHRONIZE and FILE_SYNCHRONOUS_IO_NONALERT for
every target; for attributes 0x20 (a plain archive file, not a
directory) the access used is not DELETE and the flags are not
FILE_OPEN_FOR_BACKUP_INTENT, contradicting the claim. -/
theorem unlink_open_params_unconditional :
    unlinkOpenParams 0x20
      = (false, DELETE ||| FILE_LIST_DIRECTORY ||| SYNCHRONIZE,
         FILE_OPEN_FOR_BACKUP_INTENT ||| FILE_SYNCHRONOUS_IO_NONALERT)
    ∧ (unlinkOpenParams 0x20).2.1 ≠ DELETE
    ∧ (unlinkOpenParams 0x20).2.2 ≠ FILE_OPEN_FOR_BACKUP_INTENT := by
  decide


theorem main_moved (env : UnlinkEnv) (attrs statusIn : Nat)
    (Hm : (safe_unlink_main env attrs statusIn).renamed = true)
    (Hf : NT_SUCCESS (safe_unlink_main env attrs statusIn).finalStatus = false) :
    (safe_unlink_main env attrs statusIn).status = STATUS_SUCCESS
    ∧ (safe_unlink_main env attrs statusIn).debug = 0x6
    ∧ (safe_unlink_main env attrs statusIn).closedMain = true := by
  unfold safe_unlink_main at Hm Hf ⊢
  cases hop : openLoop env 0 10 false statusIn with
  | early st dbg =>
    rw [hop] at Hm
    simp at Hm
  | opened tma st =>
    rw [hop] at Hm Hf
    rw [finishClose_renamed] at Hm
    rw [finishClose_final] at Hf
    simp [finishClose, Hm, Hf]

/-- Claim C6 (confirmed): any run of safe_unlink in which the rename
into the trash directory succeeded (has_been_moved_away) and the status
at the end of the deletion attempts is a failure closes the handle and
returns last status STATUS_SUCCESS with debug code 0x6. -/
theorem safe_unlink_moved_away_success (env : UnlinkEnv)
    (Hm : (safe_unlink env).renamed = true)
    (Hf : NT_SUCCESS (safe_unlink env).finalStatus = false) :
    (safe_unlink env).status = STATUS_SUCCESS
    ∧ (safe_unlink env).debug = 0x6
    ∧ (safe_unlink env).closedMain = true := by
  unfold safe_unlink at Hm Hf ⊢
  split_ifs at Hm Hf ⊢
  all_goals exact main_moved env _ _ Hm Hf

/-- Witness for C6: a file moved away after a sharing violation whose
disposition attempts all fail with STATUS_ACCESS_DENIED. -/
theorem safe_unlink_moved_away_success_witness :
    (safe_unlink envC6).status = STATUS_SUCCESS
    ∧ (safe_unlink envC6).debug = 0x6
    ∧ (safe_unlink envC6).closedMain = true :=
  safe_unlink_moved_away_success envC6 (by decide) (by decide)

theorem NT_SUCCESS_dir_not_empty : NT_SUCCESS STATUS_DIRECTORY_NOT_EMPTY = false := by
  decide

theorem main_nonempty_dir (env : UnlinkEnv) (attrs statusIn : Nat)
    (Hdir : FILE_ATTRIBUTE_DIRECTORY &&& attrs ≠ 0)
    (Hne : (is_dir_empty env.pages).1 = STATUS_DIRECTORY_NOT_EMPTY)
    (Hopen : ∀ n, env.openStatus n ≠ STATUS_DELETE_PENDING)
    (Hdisp : ∀ n, env.dispStatus n = STATUS_DIRECTORY_NOT_EMPTY) :
    NT_SUCCESS (safe_unlink_main env attrs statusIn).status = false
    ∧ (safe_unlink_main env attrs statusIn).moveAwayCalled = false
    ∧ (safe_unlink_main env attrs statusIn).renamed = false := by
  have hnesucc : NT_SUCCESS (is_dir_empty env.pages).1 = false := by
    rw [Hne]; decide
  unfold safe_unlink_main
  cases hop : openLoop env 0 10 false statusIn with
  | early st dbg =>
    have hfail := openLoop_early_fail env Hopen 10 0 false statusIn st dbg hop
    exact ⟨hfail, rfl, rfl⟩
  | opened tma st =>
    have hid : (unlinkOpenParams attrs).1 = true := by
      simp [unlinkOpenParams, Hdir]
    rw [hid]
    cases tma with
    | true =>
      simp [delPhase, finishClose, Hne, NT_SUCCESS_dir_not_empty]
    | false =>
      by_cases hst : NT_SUCCESS st = true
      · have h20 : delLoop env 0 20 false false false false st
            = ⟨STATUS_DIRECTORY_NOT_EMPTY, false, false, false⟩ :=
          delLoop_stops_not_empty env 0 19 false false false st (Hdisp 0) hnesucc
        simp [delPhase, finishClose, hst, h20, NT_SUCCESS_dir_not_empty]
      · rw [Bool.not_eq_true] at hst
        simp [delPhase, finishClose, hst]

/-- Claim C3 (confirmed): for a target that is a non-empty directory —
the kernel lists it as dot, dot-dot and a third entry, with a live entry
among the rest, and every set-disposition attempt reports
STATUS_DIRECTORY_NOT_EMPTY — safe_unlink ends with a failing status
(directory-not-empty or the last error) and never invokes move_away:
nothing is renamed into the trash directory. -/
theorem safe_unlink_nonempty_dir (env : UnlinkEnv)
    (d1 d2 e3 : DirEntry) (t : List DirEntry) (ps : List (List DirEntry))
    (Hq : NT_SUCCESS env.queryStatus = true)
    (Hd : FILE_ATTRIBUTE_DIRECTORY &&& env.attrs ≠ 0)
    (Hd2 : FILE_ATTRIBUTE_DIRECTORY &&& env.requeryAttrs ≠ 0)
    (Hpages : env.pages = (d1 :: d2 :: e3 :: t) :: ps)
    (Hlive : (((e3 :: t) :: ps).all fun p => p.all fun e => absentB e.attrStatus) = false)
    (Hopen : ∀ n, env.openStatus n ≠ STATUS_DELETE_PENDING)
    (Hdisp : ∀ n, env.dispStatus n = STATUS_DIRECTORY_NOT_EMPTY) :
    NT_SUCCESS (safe_unlink env).status = false
    ∧ (safe_unlink env).moveAwayCalled = false
    ∧ (safe_unlink env).renamed = false := by
  have Hne : (is_dir_empty env.pages).1 = STATUS_DIRECTORY_NOT_EMPTY := by
    rw [Hpages]
    show (scanPages ((e3 :: t) :: ps)).1 = STATUS_DIRECTORY_NOT_EMPTY
    exact scanPages_not_all_absent _ Hlive
  unfold safe_unlink
  split_ifs with h1 h2 h3 h4
  · rw [Hq] at h1; cases h1
  · exact ⟨h4, rfl, rfl⟩
  · exact main_nonempty_dir env _ _ Hd2 Hne Hopen Hdisp
  · exact main_nonempty_dir env _ _ Hd Hne Hopen Hdisp
  · exact main_nonempty_dir env _ _ Hd Hne Hopen Hdisp

/-- Witness for C3: a concrete directory listed with three live entries
whose disposition attempts report STATUS_DIRECTORY_NOT_EMPTY. -/
theorem safe_unlink_nonempty_dir_witness :
    NT_SUCCESS (safe_unlink envC3).status = false
    ∧ (safe_unlink envC3).moveAwayCalled = false
    ∧ (safe_unlink envC3).renamed = false :=
  safe_unlink_nonempty_dir envC3 ⟨0, STATUS_SUCCESS⟩ ⟨1, STATUS_SUCCESS⟩ ⟨2, STATUS_SUCCESS⟩ [] []
    (by decide) (by decide) (by decide) rfl (by decide)
    (fun _ => by show STATUS_SUCCESS ≠ STATUS_DELETE_PENDING; decide) (fun _ => rfl)

-- ## Claim theorems on is_gui_app, gvd_waitpid and gvd_new_tty

/-- Counterexample to claim C4 as stated: when the executable cannot be
opened (a read failure), is_gui_app does not classify the target as GUI
— it returns -1, and nt_spawnve then treats the target as a console
application launched through a cmd /c prefix. -/
theorem is_gui_app_read_failure_counterexample :
    is_gui_app ⟨false, true, true, 3⟩ = -1
    ∧ is_gui_app ⟨false, true, true, 3⟩ ≠ 1
    ∧ spawnGuiClass ⟨false, true, true, 3⟩ = (0, true) := by
  decide

/-- Claim C4 (amended): is_gui_app returns 0 (console) exactly when the
PE headers were read successfully and Subsystem is WINDOWS_CUI (3),
OS2_CUI (5) or POSIX_CUI (7); it returns 1 (GUI) for every other
subsystem read successfully; on read failure it returns -1, which
nt_spawnve maps to a console classification with a cmd /c prefix. -/
theorem is_gui_app_classification (env : PEEnv) :
    (is_gui_app env = 0 ↔ (env.openOk = true ∧ env.dosSigOk = true ∧ env.ntSigOk = true
        ∧ (env.subsystem = 3 ∨ env.subsystem = 5 ∨ env.subsystem = 7)))
    ∧ (is_gui_app env = 1 ↔ (env.openOk = true ∧ env.dosSigOk = true ∧ env.ntSigOk = true
        ∧ ¬(env.subsystem = 3 ∨ env.subsystem = 5 ∨ env.subsystem = 7)))
    ∧ (is_gui_app env = -1 ↔ ¬(env.openOk = true ∧ env.dosSigOk = true ∧ env.ntSigOk = true))
    ∧ (spawnGuiClass env = (0, true)
        ↔ ¬(env.openOk = true ∧ env.dosSigOk = true ∧ env.ntSigOk = true)) := by
  rcases env with ⟨o, d, n, s⟩
  cases o with
  | false => simp [is_gui_app, spawnGuiClass]
  | true =>
  cases d with
  | false => simp [is_gui_app, spawnGuiClass]
  | true =>
  cases n with
  | false => simp [is_gui_app, spawnGuiClass]
  | true =>
  by_cases h0 : s = 0
  · subst h0; decide
  by_cases h1 : s = 1
  · subst h1; decide
  by_cases h2 : s = 2
  · subst h2; decide
  by_cases h3 : s = 3
  · subst h3; decide
  by_cases h5 : s = 5
  · subst h5; decide
  by_cases h7 : s = 7
  · subst h7; decide
  simp [is_gui_app, spawnGuiClass, h0, h1, h2, h3, h5, h7]

/-- Claim C8 (code bug): gvd_waitpid on Windows calls
WaitForSingleObject with a timeout of 0, so for a child that is still
running it does not block: it returns immediately with
GetExitCodeProcess's STILL_ACTIVE value 259 instead of the child's exit
status (here 7), while an INFINITE wait — what the claim describes —
would have blocked.  Once the child has exited the exit status is
returned and both handles are closed. -/
theorem gvd_waitpid_no_wait :
    gvd_waitpid_win ⟨true, 7⟩ = some (259, true, true)
    ∧ gvd_waitpid_win ⟨false, 7⟩ = some (7, true, true)
    ∧ WaitForSingleObject ⟨true, 7⟩ 0xFFFFFFFF = none := by
  decide

/-- Claim C9 (confirmed): in an environment where pty allocation fails
(getpt returns -1), allocate_pty_desc returns status -1 with the out
parameter set to null, and gvd_new_tty — which never inspects that
status — dereferences the null handle when reading master_fd. -/
theorem gvd_new_tty_null_deref :
    allocate_pty_desc ⟨-1, true, []⟩ = (-1, none)
    ∧ gvd_new_tty ⟨-1, true, []⟩ = Except.error TtyFault.nullDeref :=
  ⟨rfl, rfl⟩

-- ## Helper lemmas on the poll models

theorem tvOf_neg_iff (t : Int) :
    ((tvOf t).1 < 0 ∨ (tvOf t).2 < 0) ↔ t < 0 := by
  show (Int.tdiv t 1000 < 0 ∨ Int.tmod t 1000 * 1000 < 0) ↔ t < 0
  constructor
  · intro h
    by_contra hge
    push_neg at hge
    have hd : 0 ≤ Int.tdiv t 1000 := Int.tdiv_nonneg hge (by norm_num)
    have hm : 0 ≤ Int.tmod t 1000 := Int.tmod_nonneg 1000 hge
    rcases h with h | h
    · omega
    · nlinarith
  · intro ht
    by_contra h
    push_neg at h
    obtain ⟨h1, h2⟩ := h
    have hmod : 0 ≤ Int.tmod t 1000 := by nlinarith
    have heq := Int.tdiv_add_tmod t 1000
    linarith

theorem selectCount_nonneg (fds : List Int) (env : PosixEnv) :
    0 ≤ selectCount fds env := by
  unfold selectCount
  positivity

theorem map_readable_spec (fds : List Int) (env : PosixEnv) :
    (fds.map fun f => if env.readable f then (1 : Int) else 0).length = fds.length
    ∧ ∀ i, (hi : i < fds.length) →
        (hs : i < (fds.map fun f => if env.readable f then (1 : Int) else 0).length) →
        (((fds.map fun f => if env.readable f then (1 : Int) else 0).get ⟨i, hs⟩ = 1)
          ↔ env.readable (fds.get ⟨i, hi⟩) = true) := by
  constructor
  · simp
  · intro i hi hs
    simp only [List.get_eq_getElem, List.getElem_map]
    cases hr : env.readable (fds.get ⟨i, hi⟩) <;> simp [hr]

theorem poll_contract_posix (fds : List Int) (timeout : Int) (is0 : List Int)
    (env : PosixEnv) (r : Int) (s : List Int)
    (h : expect_poll_posix fds timeout is0 env = some (r, s)) :
    posixPollSpec fds timeout is0 env r s := by
  unfold expect_poll_posix at h
  simp only [] at h
  rcases hsel : selectModel fds (if timeout = -1 then none else some (tvOf timeout)) env
    with _ | ready
  · rw [hsel] at h; cases h
  · rw [hsel] at h
    replace h : (if ready > 0 then
        some (ready, fds.map fun f => if env.readable f then (1 : Int) else 0)
      else if timeout = -1 ∧ ready = 0 then none else some (ready, is0)) = some (r, s) := h
    unfold selectModel at hsel
    by_cases he : env.selErr
    · rw [if_pos he] at hsel
      have hready : ready = -1 := by injection hsel with hs1; omega
      subst hready
      rw [if_neg (by decide : ¬((-1 : Int) > 0))] at h
      have hand : ¬(timeout = -1 ∧ (-1 : Int) = 0) := by rintro ⟨_, hc⟩; cases hc
      rw [if_neg hand] at h
      rw [Option.some.injEq, Prod.mk.injEq] at h
      obtain ⟨hr, hs⟩ := h
      right; right
      exact ⟨hr.symm, hs.symm, Or.inl he⟩
    · rw [if_neg he] at hsel
      by_cases ht : timeout = -1
      · rw [if_pos ht] at hsel
        replace hsel : (if selectCount fds env > 0 then some (selectCount fds env)
            else none) = some ready := hsel
        by_cases hc : selectCount fds env > 0
        · rw [if_pos hc] at hsel
          have hready : ready = selectCount fds env := by injection hsel with hs1; omega
          subst hready
          rw [if_pos hc] at h
          rw [Option.some.injEq, Prod.mk.injEq] at h
          obtain ⟨hr, hs⟩ := h
          left
          obtain ⟨hlen, hget⟩ := map_readable_spec fds env
          subst hr; subst hs
          exact ⟨hc, rfl, hlen, hget⟩
        · rw [if_neg hc] at hsel; cases hsel
      · rw [if_neg ht] at hsel
        replace hsel : (if (tvOf timeout).1 < 0 ∨ (tvOf timeout).2 < 0 then some (-1)
            else some (selectCount fds env)) = some ready := hsel
        by_cases hv : (tvOf timeout).1 < 0 ∨ (tvOf timeout).2 < 0
        · rw [if_pos hv] at hsel
          have hready : ready = -1 := by injection hsel with hs1; omega
          subst hready
          rw [if_neg (by decide : ¬((-1 : Int) > 0))] at h
          have hand : ¬(timeout = -1 ∧ (-1 : Int) = 0) := by rintro ⟨hc, _⟩; exact ht hc
          rw [if_neg hand] at h
          rw [Option.some.injEq, Prod.mk.injEq] at h
          obtain ⟨hr, hs⟩ := h
          right; right
          exact ⟨hr.symm, hs.symm, Or.inr ⟨(tvOf_neg_iff timeout).mp hv, ht⟩⟩
        · rw [if_neg hv] at hsel
          have hready : ready = selectCount fds env := by injection hsel with hs1; omega
          subst hready
          by_cases hc : selectCount fds env > 0
          · rw [if_pos hc] at h
            rw [Option.some.injEq, Prod.mk.injEq] at h
            obtain ⟨hr, hs⟩ := h
            left
            obtain ⟨hlen, hget⟩ := map_readable_spec fds env
            subst hr; subst hs
            exact ⟨hc, rfl, hlen, hget⟩
          · rw [if_neg hc] at h
            have h0 : selectCount fds env = 0 := by
              have := selectCount_nonneg fds env; omega
            have hand : ¬(timeout = -1 ∧ selectCount fds env = 0) := by
              rintro ⟨hc2, _⟩; exact ht hc2
            rw [if_neg hand] at h
            rw [Option.some.injEq, Prod.mk.injEq] at h
            obtain ⟨hr, hs⟩ := h
            right; left
            have htpos : 0 ≤ timeout := by
              by_contra hneg
              push_neg at hneg
              exact hv ((tvOf_neg_iff timeout).mpr hneg)
            refine ⟨by omega, hs.symm, h0, ?_, htpos⟩
            rw [Bool.not_eq_true] at he
            exact he

theorem winPass_none (env : WinEnv) :
    ∀ fds, winPass env fds = none → ∀ f ∈ fds, env.peekOk f = true ∧ env.avail f = 0 := by
  intro fds
  induction fds with
  | nil => intro _ f hf; cases hf
  | cons g rest ih =>
    intro h f hf
    unfold winPass at h
    by_cases hp : env.peekOk g = false
    · rw [if_pos hp] at h; cases h
    · rw [if_neg hp] at h
      by_cases ha : env.avail g > 0
      · rw [if_pos ha] at h; cases h
      · rw [if_neg ha] at h
        rcases hw : winPass env rest with _ | ⟨r0, s0⟩
        · rcases List.mem_cons.mp hf with hf2 | hf2
          · subst hf2
            rw [Bool.not_eq_false] at hp
            exact ⟨hp, by omega⟩
          · exact ih hw f hf2
        · rw [hw] at h
          replace h : some ((r0, 0 :: s0) : Int × List Int) = none := h
          cases h

theorem winPass_some (env : WinEnv) :
    ∀ fds r s, winPass env fds = some (r, s) →
      (r = 1 ∧ ∃ pre f post, fds = pre ++ f :: post
         ∧ (∀ g ∈ pre, env.peekOk g = true ∧ env.avail g = 0)
         ∧ env.peekOk f = true ∧ 0 < env.avail f
         ∧ s = zerosList pre.length ++ 1 :: zerosList post.length)
      ∨ (r = -1 ∧ s = zerosList fds.length ∧ ∃ f ∈ fds, env.peekOk f = false) := by
  intro fds
  induction fds with
  | nil => intro r s h; cases h
  | cons g rest ih =>
    intro r s h
    unfold winPass at h
    by_cases hp : env.peekOk g = false
    · rw [if_pos hp] at h
      rw [Option.some.injEq, Prod.mk.injEq] at h
      obtain ⟨hr, hs⟩ := h
      right
      refine ⟨hr.symm, ?_, g, List.mem_cons_self g rest, hp⟩
      rw [← hs]; rfl
    · rw [if_neg hp] at h
      by_cases ha : env.avail g > 0
      · rw [if_pos ha] at h
        rw [Option.some.injEq, Prod.mk.injEq] at h
        obtain ⟨hr, hs⟩ := h
        left
        refine ⟨hr.symm, [], g, rest, rfl, ?_, ?_, ha, ?_⟩
        · intro x hx; cases hx
        · rw [Bool.not_eq_false] at hp; exact hp
        · rw [← hs]; rfl
      · rw [if_neg ha] at h
        rcases hw : winPass env rest with _ | ⟨r0, s0⟩
        · rw [hw] at h
          replace h : (none : Option (Int × List Int)) = some (r, s) := h
          cases h
        · rw [hw] at h
          replace h : some ((r0, 0 :: s0) : Int × List Int) = some (r, s) := h
          rw [Option.some.injEq, Prod.mk.injEq] at h
          obtain ⟨hr, hs⟩ := h
          rcases ih r0 s0 hw with ⟨hr0, pre, f, post, hfds, hpre, hpk, hav, hs0⟩
            | ⟨hr0, hs0, f, hf, hpf⟩
          · left
            refine ⟨by omega, g :: pre, f, post, ?_, ?_, hpk, hav, ?_⟩
            · rw [hfds]; rfl
            · intro x hx
              rcases List.mem_cons.mp hx with hx2 | hx2
              · subst hx2
                rw [Bool.not_eq_false] at hp
                exact ⟨hp, by omega⟩
              · exact hpre x hx2
            · rw [← hs, hs0]; rfl
          · right
            refine ⟨by omega, ?_, f, List.mem_cons_of_mem g hf, hpf⟩
            rw [← hs, hs0]; rfl

theorem poll_contract_win (fds : List Int) (timeout : Int) (env : WinEnv)
    (r : Int) (s : List Int)
    (h : expect_poll_win fds timeout env = some (r, s)) :
    winPollSpec fds timeout env r s := by
  unfold expect_poll_win at h
  rcases hw : winPass env fds with _ | ⟨r0, s0⟩
  · rw [hw] at h
    replace h : (if timeout < 0 then none
        else some ((0 : Int), zerosList fds.length)) = some (r, s) := h
    by_cases ht : timeout < 0
    · rw [if_pos ht] at h; cases h
    · rw [if_neg ht] at h
      rw [Option.some.injEq, Prod.mk.injEq] at h
      obtain ⟨hr, hs⟩ := h
      right; left
      exact ⟨hr.symm, by omega, hs.symm, winPass_none env fds hw⟩
  · rw [hw] at h
    replace h : some ((r0, s0) : Int × List Int) = some (r, s) := h
    rw [Option.some.injEq, Prod.mk.injEq] at h
    obtain ⟨hr, hs⟩ := h
    subst hr; subst hs
    rcases winPass_some env fds r0 s0 hw with hcase | hcase
    · left; exact hcase
    · right; right; exact hcase

-- ## Claim theorems on __gnat_expect_poll

/-- Counterexample to claim C2 as stated: with data available on both
pipes, the Windows poll returns 1 — not the number of readable
descriptors, which is 2 — and marks only the first descriptor in
is_set, so is_set[1] is 0 although fds[1] is readable. -/
theorem poll_readable_count_counterexample :
    expect_poll_win [10, 11] 100 envWinRdy = some (1, [1, 0])
    ∧ 0 < envWinRdy.avail 11
    ∧ expect_poll_win [10, 11] 100 envWinRdy ≠ some (2, [1, 1]) := by
  decide

/-- Claim C2 (amended): whenever either implementation of
__gnat_expect_poll returns, the POSIX variant returns the select count
over the read and exception sets (is_set marking exactly the readable
descriptors) when positive, 0 on expiry of a non-negative timeout with
is_set left untouched, and -1 on select error; the Windows variant
returns 1 marking only the first descriptor with data available, 0
after a clean pass under a non-negative timeout, and -1 on a
PeekNamedPipe failure, is_set all zero in both latter cases. -/
theorem poll_return_and_is_set :
    (∀ fds timeout is0 env r s,
        expect_poll_posix fds timeout is0 env = some (r, s) →
          posixPollSpec fds timeout is0 env r s)
    ∧ (∀ fds timeout env r s,
        expect_poll_win fds timeout env = some (r, s) →
          winPollSpec fds timeout env r s) :=
  ⟨poll_contract_posix, poll_contract_win⟩

/-- Witness for C2: a POSIX call with descriptor 4 readable returns
(1, [1]) and satisfies the amended contract. -/
theorem poll_return_and_is_set_witness :
    posixPollSpec [4] 5 [9] envPosixRdy 1 [1] :=
  poll_return_and_is_set.1 [4] 5 [9] envPosixRdy 1 [1] (by decide)

/-- Counterexample to claim C7 as stated: for the negative timeout -2
the POSIX poll does not wait indefinitely — the computed timeval has a
negative microsecond field, select fails with EINVAL and the call
returns (-1, is_set untouched) after the first round — whereas timeout
-1 does block forever when nothing is ready. -/
theorem poll_negative_timeout_counterexample :
    expect_poll_posix [5] (-2) [0] envPosixIdle = some (-1, [0])
    ∧ expect_poll_posix [5] (-2) [0] envPosixIdle ≠ none
    ∧ expect_poll_posix [5] (-1) [0] envPosixIdle = none := by
  decide

/-- Claim C7 (amended): the POSIX poll passes an unbounded wait to
select and re-loops exactly for timeout = -1 — with that timeout the
call fails to return precisely while select reports no error and no
descriptor is readable or exceptional — and for every timeout other
than -1 (including every other negative value) the call returns after
the first select round. -/
theorem poll_negative_timeout :
    (∀ fds is0 env, expect_poll_posix fds (-1) is0 env = none
        ↔ (env.selErr = false ∧ selectCount fds env = 0))
    ∧ (∀ fds timeout is0 env, timeout ≠ -1 →
        (expect_poll_posix fds timeout is0 env).isSome = true) := by
  constructor
  · intro fds is0 env
    by_cases he : env.selErr
    · simp [expect_poll_posix, selectModel, he]
    · by_cases hc : selectCount fds env > 0
      · have hc0 : selectCount fds env ≠ 0 := by omega
        simp [expect_poll_posix, selectModel, he, hc, hc0]
      · have h0 : selectCount fds env = 0 := by
          have := selectCount_nonneg fds env; omega
        simp [expect_poll_posix, selectModel, he, h0]
  · intro fds timeout is0 env ht
    by_cases he : env.selErr
    · simp [expect_poll_posix, selectModel, he, ht]
    · by_cases hv : (tvOf timeout).1 < 0 ∨ (tvOf timeout).2 < 0
      · simp [expect_poll_posix, selectModel, he, hv, ht]
      · by_cases hc : selectCount fds env > 0
        · simp [expect_poll_posix, selectModel, he, hv, hc, ht]
        · simp [expect_poll_posix, selectModel, he, hv, hc, ht]

/-- Witness for C7: with timeout 0 — not -1 — the call returns. -/
theorem poll_negative_timeout_witness :
    (expect_poll_posix [3] 0 [0] envPosixIdle).isSome = true :=
  poll_negative_timeout.2 [3] 0 [0] envPosixIdle (by decide)

-- ## Helper lemmas for the command-line round trip

theorem foldl_replicate_esc (k : Nat) (q : Bool) (b : Nat) (a : List Char)
    (o : List (List Char)) :
    (List.replicate k escape_char).foldl splitStep ⟨q, b, some a, o⟩
      = ⟨q, b + k, some a, o⟩ := by
  induction k generalizing b with
  | zero => rfl
  | succ k ih =>
    rw [List.replicate_succ, List.foldl_cons]
    have hstep : splitStep ⟨q, b, some a, o⟩ escape_char = ⟨q, b + 1, some a, o⟩ := by
      simp [splitStep]
    rw [hstep, ih]
    have hk : b + 1 + k = b + (k + 1) := by omega
    rw [hk]

theorem quoteBody_cons (c : Char) (rest : List Char) (run : Nat) :
    quoteBody (c :: rest) run
      = if c = '"' then
          List.replicate run escape_char ++ escape_char :: c :: quoteBody rest 0
        else c :: quoteBody rest (if c = escape_char then run + 1 else 0) := rfl

theorem quoted_body_parse (arg : List Char) :
    ∀ k a o, (quoteBody arg k ++ ['"']).foldl splitStep ⟨true, k, some a, o⟩
      = ⟨false, 0, some (a ++ List.replicate k escape_char ++ arg), o⟩ := by
  induction arg with
  | nil =>
    intro k a o
    rw [show quoteBody [] k = List.replicate k escape_char from rfl]
    rw [List.foldl_append, foldl_replicate_esc]
    rw [show (['"'] : List Char) = '"' :: [] from rfl, List.foldl_cons]
    have hstep : splitStep ⟨true, k + k, some a, o⟩ '"'
        = ⟨false, 0, some (a ++ List.replicate k escape_char), o⟩ := by
      unfold splitStep
      rw [if_neg (by decide : ¬('"' = escape_char)), if_pos rfl]
      rw [if_pos (by omega : (k + k) % 2 = 0)]
      have h2 : (k + k) / 2 = k := by omega
      rw [h2]
      rfl
    rw [hstep]
    simp
  | cons c rest ih =>
    intro k a o
    by_cases hq : c = '"'
    · subst hq
      rw [quoteBody_cons, if_pos rfl]
      rw [List.append_assoc, List.foldl_append, foldl_replicate_esc]
      rw [List.cons_append, List.cons_append, List.foldl_cons, List.foldl_cons]
      have hstep1 : splitStep ⟨true, k + k, some a, o⟩ escape_char
          = ⟨true, k + k + 1, some a, o⟩ := by
        simp [splitStep]
      rw [hstep1]
      have hstep2 : splitStep ⟨true, k + k + 1, some a, o⟩ '"'
          = ⟨true, 0, some (a ++ List.replicate k escape_char ++ ['"']), o⟩ := by
        unfold splitStep
        rw [if_neg (by decide : ¬('"' = escape_char)), if_pos rfl]
        rw [if_neg (by omega : ¬((k + k + 1) % 2 = 0))]
        have h2 : (k + k + 1) / 2 = k := by omega
        rw [h2]
        rfl
      rw [hstep2, ih]
      simp
    · by_cases he : c = escape_char
      · subst he
        rw [quoteBody_cons, if_neg (by decide : ¬(escape_char = '"')), if_pos rfl]
        rw [List.cons_append, List.foldl_cons]
        have hstep : splitStep ⟨true, k, some a, o⟩ escape_char
            = ⟨true, k + 1, some a, o⟩ := by
          simp [splitStep]
        rw [hstep, ih]
        rw [List.replicate_succ']
        simp
      · rw [quoteBody_cons, if_neg hq, if_neg he]
        rw [List.cons_append, List.foldl_cons]
        have hstep : splitStep ⟨true, k, some a, o⟩ c
            = ⟨true, 0, some (a ++ List.replicate k escape_char ++ [c]), o⟩ := by
          simp [splitStep, he, hq]
        rw [hstep, ih]
        simp

theorem unquoted_parse (arg : List Char) :
    ∀ k a o, (∀ c ∈ arg, c ≠ '"' ∧ isCmdWS c = false) →
      ∃ t b, arg.foldl splitStep ⟨false, k, some a, o⟩ = ⟨false, t, some b, o⟩
        ∧ b ++ List.replicate t escape_char = a ++ List.replicate k escape_char ++ arg := by
  induction arg with
  | nil =>
    intro k a o _
    exact ⟨k, a, rfl, by simp⟩
  | cons c rest ih =>
    intro k a o hprop
    obtain ⟨hq, hw⟩ := hprop c (List.mem_cons_self c rest)
    have hrest : ∀ x ∈ rest, x ≠ '"' ∧ isCmdWS x = false :=
      fun x hx => hprop x (List.mem_cons_of_mem c hx)
    rw [List.foldl_cons]
    by_cases he : c = escape_char
    · subst he
      have hstep : splitStep ⟨false, k, some a, o⟩ escape_char
          = ⟨false, k + 1, some a, o⟩ := by
        simp [splitStep]
      rw [hstep]
      obtain ⟨t, b, hfold, heq⟩ := ih (k + 1) a o hrest
      refine ⟨t, b, hfold, ?_⟩
      rw [heq, List.replicate_succ']
      simp
    · have hstep : splitStep ⟨false, k, some a, o⟩ c
          = ⟨false, 0, some (a ++ List.replicate k escape_char ++ [c]), o⟩ := by
        simp [splitStep, he, hq, hw]
      rw [hstep]
      obtain ⟨t, b, hfold, heq⟩ := ih 0 (a ++ List.replicate k escape_char ++ [c]) o hrest
      refine ⟨t, b, hfold, ?_⟩
      rw [heq]
      simp

theorem splitStep_none_eq (c : Char) (o : List (List Char)) (hw : isCmdWS c = false) :
    splitStep ⟨false, 0, none, o⟩ c = splitStep ⟨false, 0, some [], o⟩ c := by
  unfold splitStep
  by_cases he : c = escape_char
  · rw [if_pos he, if_pos he]
    rfl
  · rw [if_neg he, if_neg he]
    by_cases hq : c = '"'
    · rw [if_pos hq, if_pos hq]
      simp
    · rw [if_neg hq, if_neg hq]
      simp [hw]

theorem quoteArg_parse (arg : List Char) (o : List (List Char)) :
    ∃ t b, (quoteArg arg).foldl splitStep ⟨false, 0, none, o⟩ = ⟨false, t, some b, o⟩
      ∧ b ++ List.replicate t escape_char = arg := by
  by_cases hn : needQuotes arg
  · refine ⟨0, arg, ?_, by simp⟩
    rw [show quoteArg arg = '"' :: (quoteBody arg 0 ++ ['"']) from by
      unfold quoteArg; rw [if_pos hn]]
    rw [List.foldl_cons]
    have hstep : splitStep ⟨false, 0, none, o⟩ '"' = ⟨true, 0, some [], o⟩ := by
      unfold splitStep
      rw [if_neg (by decide : ¬('"' = escape_char)), if_pos rfl]
      rw [if_pos (by omega : (0 : Nat) % 2 = 0)]
      simp
    rw [hstep, quoted_body_parse arg 0 [] o]
    simp
  · rw [show quoteArg arg = arg from by unfold quoteArg; rw [if_neg hn]]
    rw [Bool.not_eq_true] at hn
    have hprops : arg ≠ [] ∧ ∀ c ∈ arg, c ≠ '"' ∧ isCmdWS c = false := by
      unfold needQuotes at hn
      simp at hn
      refine ⟨hn.1, fun c hc => ?_⟩
      obtain ⟨⟨hsp, htb⟩, hqc⟩ := hn.2 c hc
      exact ⟨hqc, by simp [isCmdWS, hsp, htb]⟩
    obtain ⟨hne, hch⟩ := hprops
    rcases harg : arg with _ | ⟨c0, rest⟩
    · exact absurd harg hne
    · subst harg
      obtain ⟨hq0, hw0⟩ := hch c0 (List.mem_cons_self c0 rest)
      rw [List.foldl_cons, splitStep_none_eq c0 o hw0, ← List.foldl_cons]
      obtain ⟨t, b, hf, heb⟩ := unquoted_parse (c0 :: rest) 0 [] o hch
      refine ⟨t, b, hf, ?_⟩
      rw [heb]
      simp

theorem nt_cmdline_parse (argv : List (List Char)) :
    ∀ o, splitFinish ((nt_spawnve_cmdline argv).foldl splitStep ⟨false, 0, none, o⟩)
      = o ++ argv := by
  induction argv with
  | nil => intro o; simp [nt_spawnve_cmdline, splitFinish]
  | cons a rest ih =>
    intro o
    rcases rest with _ | ⟨b, rest2⟩
    · rw [show nt_spawnve_cmdline [a] = quoteArg a from rfl]
      obtain ⟨t, c, hf, he⟩ := quoteArg_parse a o
      rw [hf]
      unfold splitFinish
      simp [he]
    · rw [show nt_spawnve_cmdline (a :: b :: rest2)
          = quoteArg a ++ ' ' :: nt_spawnve_cmdline (b :: rest2) from rfl]
      rw [List.foldl_append]
      obtain ⟨t, c, hf, he⟩ := quoteArg_parse a o
      rw [hf, List.foldl_cons]
      have hstep : splitStep ⟨false, t, some c, o⟩ ' '
          = ⟨false, 0, none, o ++ [c ++ List.replicate t escape_char]⟩ := by
        unfold splitStep
        rw [if_neg (by decide : ¬(' ' = escape_char))]
        rw [if_neg (by decide : ¬(' ' = '"'))]
        rw [if_pos (by decide : (isCmdWS ' ' && !(false : Bool)) = true)]
      rw [hstep, he]
      rw [ih (o ++ [a])]
      simp

/-- Claim C1 (confirmed): splitting the command line that nt_spawnve
builds from argv under the Windows argument-splitting rules yields argv
itself, for every argv — including empty arguments and arguments with
spaces, tabs, embedded quotes and runs of backslashes; and an argument
is wrapped in quotes exactly when it is empty or contains a space, a
tab or a quote.  The escaping itself (each embedded quote preceded by
the escape character, runs of escape characters doubled before an
embedded quote or the closing quote) is the definition of quoteBody,
transcribed from terminals.c lines 1065-1102. -/
theorem nt_spawnve_cmdline_roundtrip :
    (∀ argv : List (List Char), winSplit (nt_spawnve_cmdline argv) = argv)
    ∧ (∀ arg : List Char,
        needQuotes arg = true ↔ (arg = [] ∨ ∃ c ∈ arg, c = ' ' ∨ c = '\t' ∨ c = '"')) := by
  constructor
  · intro argv
    unfold winSplit
    simpa using nt_cmdline_parse argv []
  · intro arg
    unfold needQuotes
    simp [or_assoc]
